import Mathlib

/-!
Shallow embedding of `src/plox/tools/system.py` (module `plox.tools.system`).

The module provides a supervised process executor (`sys_exec`, with the drain
worker `_process_out` and the thread helper `_join_logging_thread`), a
condition-gated retry helper (`block_until`) and an adapter turning an
integer-returning call into a boolean condition (`syscall_to_condition`).

Modelling choices:
- Side effects (logger calls, filesystem operations, spawning, thread
  start/join, the process wait) are recorded as an explicit event trace in the
  order the Python code performs them.
- A subprocess pipe is modelled as a script of successive `readline` outcomes:
  a nonempty line, end of stream (Python returns the empty string), or a raised
  exception.  During the drains of `sys_exec` the pipe is never closed (the
  `Popen` context manager closes the pipes only after the `with` body), so the
  `pipe.closed` check of `_process_out` is constantly false and is not an extra
  degree of freedom of the model.
- `subprocess.Popen` semantics used by the code are embedded as their own
  definitions (`childEnvOf`, `popenWait`), faithful to the documented library
  behaviour: a given `env` mapping is the complete child environment, and the
  `timeout` argument of `Popen.wait` is a number of seconds.
- Wall-clock time for `block_until` is an explicit sequence of integer-second
  clock readings, one per `time()` call; the unbounded `while True` loop is
  embedded with explicit fuel.
-/

namespace PloxSystem

/-- Python logging severity constant `logging.INFO`. -/
def INFO : Nat := 20

/-- Python logging severity constant `logging.ERROR`. -/
def ERROR : Nat := 40

/-- Outcome of one `readline` call on a subprocess pipe: a nonempty line (kept
raw, trailing newline included), end of stream (Python returns the empty
string), or a raised exception carrying a message. -/
inductive ReadResult where
  | line (raw : String)
  | eof
  | err (exMsg : String)
deriving DecidableEq

/-- Which stream a drain worker thread serves. -/
inductive StreamTag where
  | out
  | err
deriving DecidableEq

/-- Observable effects of the module, in the order the Python code performs
them.  `execLog level pfx text` records `exec_logger.log(level, ...)` whose
emitted message is `pfx` followed by a space and `text`; `debugLog`, `infoLog`
and `errorLog` record calls on the module logger `logger`; the remaining
constructors record filesystem, process and thread effects. -/
inductive Event where
  | debugLog (msg : String)
  | infoLog (msg : String)
  | errorLog (msg : String)
  | execLog (level : Nat) (pfx : String) (text : String)
  | mkdirParents (ofPath : String) (mode : Nat)
  | openCapture (path : String)
  | closeCapture (path : String)
  | spawnEvt (exe : String) (args : List String) (cwd : String)
      (env : List (String × String))
  | threadStart (tag : StreamTag)
  | threadJoin (tag : StreamTag)
  | waitStart (timeoutSeconds : Nat)
deriving DecidableEq

/-- Model of the Python `str.rstrip()` call with no argument applied to a read
line: remove trailing whitespace characters. -/
def pyRstrip (s : String) : String :=
  ⟨(s.data.reverse.dropWhile Char.isWhitespace).reverse⟩

/-- The read loop of `_process_out` (the `while True` in lines 53 to 66 of
`system.py`): on a nonempty line, log it through `exec_logger` (the text is the
line with trailing whitespace stripped, as `line.rstrip()`) and, when a capture
file is open, write the raw line; on end of stream, return; on a raised
exception, log two error messages on the module logger and continue the loop
with the next read.  The pipe is never closed during the drain (see the module
comment), so the `pipe.closed` early return never fires.  Returns the events
and the list of raw lines written to the capture file. -/
def drainLoop (level : Nat) (pfx : String) (hasCap : Bool) :
    List ReadResult → List Event × List String
  | [] => ([], [])
  | ReadResult.eof :: _ => ([], [])
  | ReadResult.line raw :: rest =>
      let r := drainLoop level pfx hasCap rest
      (Event.execLog level pfx (pyRstrip raw) :: r.1,
       if hasCap then raw :: r.2 else r.2)
  | ReadResult.err e :: rest =>
      let r := drainLoop level pfx hasCap rest
      (Event.errorLog "Exception occurred while processing log messages from subprocess"
         :: Event.errorLog e :: r.1, r.2)

/-- Embedding of `_process_out` (lines 35 to 70 of `system.py`).  When a
capture destination is given, before any read the parent directories are
created with mode `0o700`, the file is opened in mode "w" and a setup message
is logged on the module logger; then the read loop runs; finally the capture
file is flushed and closed.  Returns the events and the raw lines written to
the capture file. -/
def processOut (level : Nat) (pfx : String) (cap_dest : Option String)
    (script : List ReadResult) : List Event × List String :=
  match cap_dest with
  | none => drainLoop level pfx false script
  | some d =>
      let r := drainLoop level pfx true script
      (Event.mkdirParents d 0o700 :: Event.openCapture d
         :: Event.infoLog ("Set up output to capture file: " ++ d)
         :: (r.1 ++ [Event.closeCapture d]), r.2)

/-- The raw stdout lines a drain writes to an open capture file: every line of
the script up to the first end of stream, in arrival order. -/
def capturedLines : List ReadResult → List String
  | [] => []
  | ReadResult.eof :: _ => []
  | ReadResult.line raw :: rest => raw :: capturedLines rest
  | ReadResult.err _ :: rest => capturedLines rest

/-- Semantics of `Path.open("w")`: the file is created if absent and truncated
if present, so whatever it held before is discarded. -/
def openWriteTruncate (_prior : String) : String := ""

/-- Final contents of the capture file: the file is opened in mode "w"
(discarding `prior`) and the written lines are appended in order. -/
def captureFinalContents (prior : String) (written : List String) : String :=
  written.foldl (fun acc l => acc ++ l) (openWriteTruncate prior)

/-- The child process environment per `subprocess.Popen` semantics: when an
`env` mapping is given it is used as the complete environment of the child,
replacing, not extending, the parent process environment; only when `env` is
absent does the child inherit the parent environment. -/
def childEnvOf (env : Option (List (String × String)))
    (parent : List (String × String)) : List (String × String) :=
  match env with
  | some e => e
  | none => parent

/-- Failures `sys_exec` can surface to its caller. -/
inductive ExecError where
  | runtimeError (msg : String)
  | timeoutExpired (secondsBound : Nat)
deriving DecidableEq

/-- Semantics of `Popen.wait(timeout=t)`: the `timeout` argument is a number of
seconds; if the process has not exited within `t` seconds the call raises
`TimeoutExpired`, otherwise it returns and `returncode` is the exit code.
`sys_exec` passes `exec_timeout_mins` to this argument unscaled. -/
def popenWait (timeoutSeconds : Nat) (runtime : Nat) (code : Int) :
    Except ExecError Int :=
  if runtime ≤ timeoutSeconds then Except.ok code
  else Except.error (ExecError.timeoutExpired timeoutSeconds)

/-- The arguments of one `sys_exec` call, with the Python default values. -/
structure Invocation where
  cwd : String
  executable : String
  exec_args : List String
  environment : List (String × String)
  stdout_file_dest : Option String := none
  quiet_stderr : Bool := false
  exec_timeout_mins : Nat := 24

/-- The environment one `sys_exec` call runs in: which filesystem paths exist,
the parent process environment, the readline scripts of the two pipes of the
child, the number of seconds after the wait starts until the child exits, the
exit code of the child, and the prior contents of the capture destination. -/
structure World where
  existingFiles : List String
  parentEnv : List (String × String)
  stdoutScript : List ReadResult
  stderrScript : List ReadResult
  runtimeAtWait : Nat
  exitCode : Int
  priorCapture : String := ""

instance {ε α : Type} [DecidableEq ε] [DecidableEq α] : DecidableEq (Except ε α) :=
  fun a b =>
    match a, b with
    | Except.ok x, Except.ok y =>
        if h : x = y then Decidable.isTrue (by rw [h])
        else Decidable.isFalse (by intro hc; cases hc; exact h rfl)
    | Except.error x, Except.error y =>
        if h : x = y then Decidable.isTrue (by rw [h])
        else Decidable.isFalse (by intro hc; cases hc; exact h rfl)
    | Except.ok _, Except.error _ => Decidable.isFalse (by intro hc; cases hc)
    | Except.error _, Except.ok _ => Decidable.isFalse (by intro hc; cases hc)

/-- What one `sys_exec` call produces: the returned exit code or the raised
failure, the trace of effects in order, and the final contents of the capture
destination when one was given. -/
structure ExecOutcome where
  result : Except ExecError Int
  trace : List Event
  captureContents : Option String
deriving DecidableEq

/-- Embedding of `sys_exec` (lines 73 to 125 of `system.py`).  If the
executable does not exist, raise a `RuntimeError` naming it, before any other
effect.  Otherwise log a debug line, spawn the child with the given arguments,
working directory and environment, drain stdout on a worker thread that is
started and immediately joined, then, unless `quiet_stderr`, drain stderr the
same way, then wait for the child bounded by `exec_timeout_mins` passed as the
seconds argument of `Popen.wait`, and return the exit code. -/
def sys_exec (inv : Invocation) (w : World) : ExecOutcome :=
  if inv.executable ∈ w.existingFiles then
    let exec_all := inv.executable :: inv.exec_args
    let childEnv := childEnvOf (some inv.environment) w.parentEnv
    let oDrain := processOut INFO "o>>" inv.stdout_file_dest w.stdoutScript
    let post : List Event :=
      if inv.quiet_stderr then [Event.waitStart inv.exec_timeout_mins]
      else Event.threadStart StreamTag.err
        :: ((processOut ERROR "e>>" none w.stderrScript).1
            ++ [Event.threadJoin StreamTag.err,
                Event.waitStart inv.exec_timeout_mins])
    { result := popenWait inv.exec_timeout_mins w.runtimeAtWait w.exitCode
      trace := Event.debugLog
          ("Executing " ++ String.intercalate " " exec_all ++ " in " ++ inv.cwd)
        :: Event.spawnEvt inv.executable inv.exec_args inv.cwd childEnv
        :: Event.threadStart StreamTag.out
        :: (oDrain.1 ++ Event.threadJoin StreamTag.out :: post)
      captureContents := inv.stdout_file_dest.map
        (fun _ => captureFinalContents w.priorCapture oDrain.2) }
  else
    { result := Except.error
        (ExecError.runtimeError ("Cannot use given executable: " ++ inv.executable))
      trace := []
      captureContents := inv.stdout_file_dest.map (fun _ => w.priorCapture) }

/-- Observable steps of one `block_until` call. -/
inductive BlockEvent where
  | timeoutCheck (elapsed : Int) (limit : Nat)
  | condPoll (result : Bool)
  | sleepFor (seconds : Nat)
  | effectRun (ret : Int)
deriving DecidableEq

/-- The message of the `TimeoutError` raised by `block_until`, naming the
condition and the effect. -/
def timeoutMsg (condName effName : String) : String :=
  "Timeout waiting for condition " ++ condName ++ " to obtain before executing "
    ++ effName

/-- The integer-second clock reading difference the loop compares to the
timeout: `clock 0` is the `time()` call that sets `start` and `clock (i+1)` is
the `time()` call of iteration `i`. -/
def elapsedAt (clock : Nat → Nat) (i : Nat) : Int :=
  (clock (i + 1) : Int) - (clock 0 : Int)

/-- The `while True` loop of `block_until` (lines 179 to 190 of `system.py`),
with explicit fuel: each iteration reads the clock and raises `TimeoutError`
when the elapsed seconds strictly exceed `timeout_s`; otherwise it polls the
condition, and either runs the effect and returns its value, or sleeps
`wait_s` seconds and repeats. -/
def blockLoop (clock : Nat → Nat) (cond : Nat → Bool) (effRet : Int)
    (condName effName : String) (timeout_s wait_s : Nat) :
    Nat → Nat → Option (Except String Int) × List BlockEvent
  | 0, _ => (none, [])
  | fuel + 1, i =>
      if elapsedAt clock i > (timeout_s : Int) then
        (some (Except.error (timeoutMsg condName effName)),
         [BlockEvent.timeoutCheck (elapsedAt clock i) timeout_s])
      else if cond i then
        (some (Except.ok effRet),
         [BlockEvent.timeoutCheck (elapsedAt clock i) timeout_s,
          BlockEvent.condPoll true, BlockEvent.effectRun effRet])
      else
        let r := blockLoop clock cond effRet condName effName timeout_s wait_s
          fuel (i + 1)
        (r.1, BlockEvent.timeoutCheck (elapsedAt clock i) timeout_s
          :: BlockEvent.condPoll false :: BlockEvent.sleepFor wait_s :: r.2)

/-- Embedding of `block_until` (lines 157 to 190 of `system.py`).  The
condition is a function of the poll index, the effect returns `effRet`, and the
defaults are those of the Python signature: `timeout_s = 360`,
`condition_fail_wait_s = 10`.  Returns `none` when the fuel runs out before the
loop decides. -/
def block_until (fuel : Nat) (clock : Nat → Nat) (cond : Nat → Bool)
    (effRet : Int) (condName effName : String) (timeout_s : Nat := 360)
    (condition_fail_wait_s : Nat := 10) :
    Option (Except String Int) × List BlockEvent :=
  blockLoop clock cond effRet condName effName timeout_s condition_fail_wait_s
    fuel 0

/-- The trace of a `block_until` run whose condition is false for `k` polls
starting at iteration `i` and true at poll `i + k`, with every elapsed check in
bounds: `k` check/poll/sleep triples followed by a final check, a true poll and
the effect run. -/
def pollTrace (clock : Nat → Nat) (timeout_s wait_s : Nat) (effRet : Int) :
    Nat → Nat → List BlockEvent
  | i, 0 => [BlockEvent.timeoutCheck (elapsedAt clock i) timeout_s,
             BlockEvent.condPoll true, BlockEvent.effectRun effRet]
  | i, k + 1 => BlockEvent.timeoutCheck (elapsedAt clock i) timeout_s
      :: BlockEvent.condPoll false :: BlockEvent.sleepFor wait_s
      :: pollTrace clock timeout_s wait_s effRet (i + 1) k

/-- The trace of a `block_until` run whose condition is false for `k` polls
starting at iteration `i` and whose elapsed check at iteration `i + k` exceeds
the timeout: `k` check/poll/sleep triples followed by the failing check. -/
def pollFailTrace (clock : Nat → Nat) (timeout_s wait_s : Nat) :
    Nat → Nat → List BlockEvent
  | i, 0 => [BlockEvent.timeoutCheck (elapsedAt clock i) timeout_s]
  | i, k + 1 => BlockEvent.timeoutCheck (elapsedAt clock i) timeout_s
      :: BlockEvent.condPoll false :: BlockEvent.sleepFor wait_s
      :: pollFailTrace clock timeout_s wait_s (i + 1) k

/-- How many times the effect runs in a trace. -/
def countEffectRuns (evts : List BlockEvent) : Nat :=
  (evts.filter (fun e => match e with
    | BlockEvent.effectRun _ => true
    | _ => false)).length

/-- Embedding of `syscall_to_condition` (lines 193 to 211 of `system.py`).
The wrapped call either returns an integer or raises; the produced condition
returns whether the result equals zero, and on a raised exception logs it and
returns false instead of propagating. -/
def syscall_to_condition (call : Except String Int) : Bool × List Event :=
  match call with
  | Except.ok n => (n == 0, [])
  | Except.error ex => (false, [Event.errorLog ex])

/-- True exactly on `exec_logger` lines whose message starts with the given
stream marker. -/
def isExecLine (pfx : String) : Event → Bool
  | Event.execLog _ p _ => p == pfx
  | _ => false

/-- The raw lines a drain with an open capture file writes are exactly the
stdout lines of the script. -/
theorem drainLoop_snd_capturedLines (level : Nat) (pfx : String) :
    ∀ script, (drainLoop level pfx true script).2 = capturedLines script
  | [] => rfl
  | ReadResult.eof :: _ => rfl
  | ReadResult.line raw :: rest => by
      simp [drainLoop, capturedLines, drainLoop_snd_capturedLines level pfx rest]
  | ReadResult.err e :: rest => by
      simp [drainLoop, capturedLines, drainLoop_snd_capturedLines level pfx rest]

/-- A drain tagged `pfx` emits no `exec_logger` line carrying a different
marker `q`. -/
theorem drainLoop_filter_execLine (level : Nat) (pfx q : String) (hasCap : Bool)
    (hne : (pfx == q) = false) :
    ∀ script, ((drainLoop level pfx hasCap script).1.filter (isExecLine q)) = []
  | [] => rfl
  | ReadResult.eof :: _ => rfl
  | ReadResult.line raw :: rest => by
      simp [drainLoop, isExecLine, hne,
        drainLoop_filter_execLine level pfx q hasCap hne rest]
  | ReadResult.err e :: rest => by
      simp [drainLoop, isExecLine,
        drainLoop_filter_execLine level pfx q hasCap hne rest]

/-- `_process_out` tagged `pfx` emits no `exec_logger` line carrying a
different marker `q`. -/
theorem processOut_filter_execLine (level : Nat) (pfx q : String)
    (cap : Option String) (script : List ReadResult) (hne : (pfx == q) = false) :
    ((processOut level pfx cap script).1.filter (isExecLine q)) = [] := by
  cases cap with
  | none => exact drainLoop_filter_execLine level pfx q false hne script
  | some d =>
      simp [processOut, isExecLine,
        drainLoop_filter_execLine level pfx q true hne script]

/-- A drain never starts a thread itself. -/
theorem drainLoop_no_threadStart (level : Nat) (pfx : String) (hasCap : Bool)
    (t : StreamTag) :
    ∀ script, Event.threadStart t ∉ (drainLoop level pfx hasCap script).1
  | [] => by simp [drainLoop]
  | ReadResult.eof :: _ => by simp [drainLoop]
  | ReadResult.line raw :: rest => by
      simp [drainLoop, drainLoop_no_threadStart level pfx hasCap t rest]
  | ReadResult.err e :: rest => by
      simp [drainLoop, drainLoop_no_threadStart level pfx hasCap t rest]

/-- `_process_out` never starts a thread itself. -/
theorem processOut_no_threadStart (level : Nat) (pfx : String)
    (cap : Option String) (script : List ReadResult) (t : StreamTag) :
    Event.threadStart t ∉ (processOut level pfx cap script).1 := by
  cases cap with
  | none => exact drainLoop_no_threadStart level pfx false t script
  | some d =>
      simp [processOut, drainLoop_no_threadStart level pfx true t script]

/-- C5: for every executable path that does not reference an existing file,
`sys_exec` fails with a `RuntimeError` whose message names the missing path,
and this happens before any effect: the trace is empty, so no child process is
spawned and no line with either stream marker is logged. -/
theorem sys_exec_missing_executable (inv : Invocation) (w : World)
    (h : inv.executable ∉ w.existingFiles) :
    (sys_exec inv w).result = Except.error (ExecError.runtimeError
        ("Cannot use given executable: " ++ inv.executable))
    ∧ (sys_exec inv w).trace = []
    ∧ ((sys_exec inv w).trace.filter (isExecLine "o>>") = [])
    ∧ ((sys_exec inv w).trace.filter (isExecLine "e>>") = [])
    ∧ (∀ exe args c env, Event.spawnEvt exe args c env ∉ (sys_exec inv w).trace) := by
  simp [sys_exec, h]

/-- C5 witness at a concrete missing executable. -/
theorem sys_exec_missing_executable_inst :
    (sys_exec { cwd := "/tmp", executable := "/bin/lsss", exec_args := [],
                environment := [] }
       { existingFiles := ["/bin/ls"], parentEnv := [], stdoutScript := [],
         stderrScript := [], runtimeAtWait := 0, exitCode := 0 }).result
      = Except.error (ExecError.runtimeError
          ("Cannot use given executable: " ++ "/bin/lsss")) :=
  (sys_exec_missing_executable
    { cwd := "/tmp", executable := "/bin/lsss", exec_args := [],
      environment := [] }
    { existingFiles := ["/bin/ls"], parentEnv := [], stdoutScript := [],
      stderrScript := [], runtimeAtWait := 0, exitCode := 0 }
    (by decide)).1

/-- C7: the condition produced by `syscall_to_condition` is true exactly when
the wrapped call returns zero, is false on every nonzero return, and on a
raised exception logs it and returns false without propagating. -/
theorem syscall_to_condition_spec (call : Except String Int) :
    ((syscall_to_condition call).1 = true ↔ call = Except.ok 0)
    ∧ (∀ n, call = Except.ok n → n ≠ 0 → (syscall_to_condition call).1 = false)
    ∧ (∀ e, call = Except.error e →
        (syscall_to_condition call).1 = false
        ∧ (syscall_to_condition call).2 = [Event.errorLog e]) := by
  cases call with
  | ok n =>
      refine ⟨?_, ?_, ?_⟩
      · simp [syscall_to_condition]
      · intro m hm hne
        cases hm
        simp [syscall_to_condition, hne]
      · intro e he
        cases he
  | error e =>
      refine ⟨?_, ?_, ?_⟩
      · simp [syscall_to_condition]
      · intro n hn
        cases hn
      · intro e2 he2
        cases he2
        exact ⟨rfl, rfl⟩

/-- C7 witness: a raising call yields false with the exception logged, a call
returning 3 yields false, a call returning 0 yields true. -/
theorem syscall_to_condition_spec_inst :
    ((syscall_to_condition (Except.error "boom")).1 = false
      ∧ (syscall_to_condition (Except.error "boom")).2
          = [Event.errorLog "boom"])
    ∧ (syscall_to_condition (Except.ok 3)).1 = false
    ∧ (syscall_to_condition (Except.ok 0)).1 = true :=
  ⟨(syscall_to_condition_spec (Except.error "boom")).2.2 "boom" rfl,
   (syscall_to_condition_spec (Except.ok 3)).2.1 3 rfl (by decide),
   (syscall_to_condition_spec (Except.ok 0)).1.mpr rfl⟩

/-- C1: the invocation used to exhibit the timeout-unit divergence — the
default `exec_timeout_mins = 24`. -/
def invTimeout : Invocation :=
  { cwd := "/tmp", executable := "/bin/sleep", exec_args := ["100"],
    environment := [] }

/-- C1: a world whose child exits 100 seconds after the wait starts. -/
def worldTimeout : World :=
  { existingFiles := ["/bin/sleep"], parentEnv := [],
    stdoutScript := [ReadResult.eof], stderrScript := [ReadResult.eof],
    runtimeAtWait := 100, exitCode := 0 }

/-- C1: the docstring of `sys_exec` says the timeout is a number of minutes,
but the code passes `exec_timeout_mins` unscaled to the seconds-valued
`timeout` argument of `Popen.wait`.  With the default value 24, a child that
exits 100 seconds after the wait starts — far within the documented bound of
24 * 60 seconds — makes the call raise `TimeoutExpired`. -/
theorem sys_exec_wait_bound_is_seconds :
    (sys_exec invTimeout worldTimeout).result
      = Except.error (ExecError.timeoutExpired 24)
    ∧ invTimeout.exec_timeout_mins = 24
    ∧ worldTimeout.runtimeAtWait ≤ 24 * 60 := by
  decide

/-- C2: reading the stream raises once and a further line follows; the drain
logs the exception and then forwards the next line, so the drain loop did not
terminate at the error — refuting the claim that draining of the stream
stops. -/
theorem drain_continues_after_error_cex :
    (processOut INFO "o>>" none
        [ReadResult.err "boom", ReadResult.line "after the error\n"]).1
      = [Event.errorLog
           "Exception occurred while processing log messages from subprocess",
         Event.errorLog "boom",
         Event.execLog INFO "o>>" "after the error"] := by
  decide

/-- C3: an invocation with a capture destination whose child produces no
stdout at all. -/
def invEagerCap : Invocation :=
  { cwd := "/tmp", executable := "/bin/true", exec_args := [],
    environment := [], stdout_file_dest := some "/tmp/cap.txt" }

/-- C3: a world with empty stdout and prior contents in the capture file. -/
def worldEagerCap : World :=
  { existingFiles := ["/bin/true"], parentEnv := [],
    stdoutScript := [ReadResult.eof], stderrScript := [ReadResult.eof],
    runtimeAtWait := 0, exitCode := 0, priorCapture := "old contents" }

/-- C3: with no stdout before the open, the capture file is still opened (the
open event is in the trace before any read) and its prior contents are
truncated to the empty string — refuting the claim that the file is opened
lazily only before the first write and that no file is created or truncated
when the process produces no stdout. -/
theorem capture_file_opened_eagerly_cex :
    (sys_exec invEagerCap worldEagerCap).captureContents = some ""
    ∧ Event.openCapture "/tmp/cap.txt" ∈ (sys_exec invEagerCap worldEagerCap).trace := by
  decide

/-- C8: a failing invocation with `quiet_stderr` and a capture destination. -/
def invQuiet : Invocation :=
  { cwd := "/tmp", executable := "/bin/ls", exec_args := ["garbage"],
    environment := [], stdout_file_dest := some "cap",
    quiet_stderr := true }

/-- C8: a world where the child fails with a diagnostic on stderr and writes
nothing to stdout. -/
def worldQuiet : World :=
  { existingFiles := ["/bin/ls"], parentEnv := [],
    stdoutScript := [ReadResult.eof],
    stderrScript := [ReadResult.line "ls: cannot access garbage\n",
                     ReadResult.eof],
    runtimeAtWait := 0, exitCode := 2 }

/-- C8: with `quiet_stderr` true no stream line marked `e>>` is logged, and
the capture-file-created message does appear — but it is emitted by the module
logger as a plain info line and the trace contains no `o>>`-marked line at
all, refuting the claim that the capture-file-created message is an
`o>>`-prefixed line. -/
theorem quiet_stderr_setup_line_cex :
    ((sys_exec invQuiet worldQuiet).trace.filter (isExecLine "e>>") = [])
    ∧ Event.infoLog "Set up output to capture file: cap"
        ∈ (sys_exec invQuiet worldQuiet).trace
    ∧ ((sys_exec invQuiet worldQuiet).trace.filter (isExecLine "o>>") = []) := by
  decide

/-- C2 amended: if reading or forwarding a line raises an unexpected error,
the error is logged (two module-logger error lines) and the drain loop
continues with the next read — draining stops only at end-of-stream (or a
closed pipe) — while the overall invocation continues and still returns the
exit code of the process. -/
theorem drain_error_logged_and_loop_continues :
    (∀ level pfx hasCap e rest,
      drainLoop level pfx hasCap (ReadResult.err e :: rest)
        = (Event.errorLog
             "Exception occurred while processing log messages from subprocess"
            :: Event.errorLog e :: (drainLoop level pfx hasCap rest).1,
           (drainLoop level pfx hasCap rest).2))
    ∧ (∀ inv w, inv.executable ∈ w.existingFiles →
        w.runtimeAtWait ≤ inv.exec_timeout_mins →
        (sys_exec inv w).result = Except.ok w.exitCode) := by
  constructor
  · intro level pfx hasCap e rest
    rfl
  · intro inv w hex hrt
    simp [sys_exec, hex, popenWait, hrt]

/-- C2 amended, sample invocation: the read raises once and the call still
returns the exit code. -/
def invDrainErr : Invocation :=
  { cwd := "/tmp", executable := "/bin/cat", exec_args := [],
    environment := [] }

/-- C2 amended, sample world: one read error then end of stream. -/
def worldDrainErr : World :=
  { existingFiles := ["/bin/cat"], parentEnv := [],
    stdoutScript := [ReadResult.err "decode failure", ReadResult.eof],
    stderrScript := [ReadResult.eof], runtimeAtWait := 3, exitCode := 0 }

/-- C2 amended witness at a concrete erroring read. -/
theorem drain_error_logged_and_loop_continues_inst :
    (drainLoop 20 "o>>" false [ReadResult.err "decode failure"]
      = (Event.errorLog
           "Exception occurred while processing log messages from subprocess"
          :: Event.errorLog "decode failure" :: (drainLoop 20 "o>>" false []).1,
         (drainLoop 20 "o>>" false []).2))
    ∧ (sys_exec invDrainErr worldDrainErr).result = Except.ok 0 :=
  ⟨drain_error_logged_and_loop_continues.1 20 "o>>" false "decode failure" [],
   drain_error_logged_and_loop_continues.2 invDrainErr worldDrainErr
     (by decide) (by decide)⟩

/-- C3 amended: with a capture destination the drain creates the parent
directories with mode `0o700`, opens the file in truncating write mode and
logs the setup message before any read; each stdout line is then appended to
the open file, so the final contents are exactly the stdout lines of this
drain in order, whatever the file held before. -/
theorem capture_file_eager_open_spec (level : Nat) (pfx d : String)
    (script : List ReadResult) (prior : String) :
    ∃ rest, (processOut level pfx (some d) script).1
        = Event.mkdirParents d 0o700 :: Event.openCapture d
          :: Event.infoLog ("Set up output to capture file: " ++ d) :: rest
    ∧ (processOut level pfx (some d) script).2 = capturedLines script
    ∧ captureFinalContents prior (processOut level pfx (some d) script).2
        = String.join (capturedLines script) := by
  refine ⟨(drainLoop level pfx true script).1 ++ [Event.closeCapture d],
    rfl, ?_, ?_⟩
  · exact drainLoop_snd_capturedLines level pfx script
  · show captureFinalContents prior (drainLoop level pfx true script).2 = _
    rw [drainLoop_snd_capturedLines level pfx script]
    rfl

/-- C4: in every `sys_exec` invocation that spawns, the trace decomposes as a
pre-phase, then the stdout drain worker started and joined around exactly the
stdout drain events, then — unless stderr logging is suppressed — the stderr
drain worker started and joined around exactly the stderr drain events, then
the process-exit wait; both joins are in the trace, which is complete when the
call returns. -/
theorem sys_exec_drain_ordering (inv : Invocation) (w : World)
    (hex : inv.executable ∈ w.existingFiles) :
    ∃ pre post,
      (sys_exec inv w).trace
        = pre ++ Event.threadStart StreamTag.out
            :: ((processOut INFO "o>>" inv.stdout_file_dest w.stdoutScript).1
                ++ Event.threadJoin StreamTag.out :: post)
      ∧ (inv.quiet_stderr = true →
          post = [Event.waitStart inv.exec_timeout_mins])
      ∧ (inv.quiet_stderr = false →
          post = Event.threadStart StreamTag.err
            :: ((processOut ERROR "e>>" none w.stderrScript).1
                ++ [Event.threadJoin StreamTag.err,
                    Event.waitStart inv.exec_timeout_mins])) := by
  cases hq : inv.quiet_stderr with
  | true =>
      refine ⟨[Event.debugLog
          ("Executing "
            ++ String.intercalate " " (inv.executable :: inv.exec_args)
            ++ " in " ++ inv.cwd),
        Event.spawnEvt inv.executable inv.exec_args inv.cwd
          (childEnvOf (some inv.environment) w.parentEnv)],
        [Event.waitStart inv.exec_timeout_mins], ?_, ?_, ?_⟩
      · simp [sys_exec, hex, hq]
      · intro _
        rfl
      · simp [hq]
  | false =>
      refine ⟨[Event.debugLog
          ("Executing "
            ++ String.intercalate " " (inv.executable :: inv.exec_args)
            ++ " in " ++ inv.cwd),
        Event.spawnEvt inv.executable inv.exec_args inv.cwd
          (childEnvOf (some inv.environment) w.parentEnv)],
        Event.threadStart StreamTag.err
          :: ((processOut ERROR "e>>" none w.stderrScript).1
              ++ [Event.threadJoin StreamTag.err,
                  Event.waitStart inv.exec_timeout_mins]), ?_, ?_, ?_⟩
      · simp [sys_exec, hex, hq]
      · simp [hq]
      · intro _
        rfl

/-- C4, sample invocation with stderr logging on. -/
def invOrder : Invocation :=
  { cwd := "/tmp", executable := "/bin/ls", exec_args := [],
    environment := [] }

/-- C4, sample world with one line on each stream. -/
def worldOrder : World :=
  { existingFiles := ["/bin/ls"], parentEnv := [],
    stdoutScript := [ReadResult.line "file.txt\n", ReadResult.eof],
    stderrScript := [ReadResult.line "warning\n", ReadResult.eof],
    runtimeAtWait := 0, exitCode := 0 }

/-- C4 witness at a concrete invocation. -/
theorem sys_exec_drain_ordering_inst :
    ∃ pre post,
      (sys_exec invOrder worldOrder).trace
        = pre ++ Event.threadStart StreamTag.out
            :: ((processOut INFO "o>>" invOrder.stdout_file_dest
                  worldOrder.stdoutScript).1
                ++ Event.threadJoin StreamTag.out :: post)
      ∧ (invOrder.quiet_stderr = true →
          post = [Event.waitStart invOrder.exec_timeout_mins])
      ∧ (invOrder.quiet_stderr = false →
          post = Event.threadStart StreamTag.err
            :: ((processOut ERROR "e>>" none worldOrder.stderrScript).1
                ++ [Event.threadJoin StreamTag.err,
                    Event.waitStart invOrder.exec_timeout_mins])) :=
  sys_exec_drain_ordering invOrder worldOrder (by decide)

/-- C8 amended: with `quiet_stderr` true the stderr drain worker is never
started and no `e>>`-marked line is logged, whatever the invocation outcome;
when a capture destination is given, the capture-file setup line still
appears, emitted by the module logger without any stream marker. -/
theorem quiet_stderr_no_err_lines (inv : Invocation) (w : World)
    (hq : inv.quiet_stderr = true) (hex : inv.executable ∈ w.existingFiles) :
    ((sys_exec inv w).trace.filter (isExecLine "e>>") = [])
    ∧ Event.threadStart StreamTag.err ∉ (sys_exec inv w).trace
    ∧ (∀ d, inv.stdout_file_dest = some d →
        Event.infoLog ("Set up output to capture file: " ++ d)
          ∈ (sys_exec inv w).trace) := by
  refine ⟨?_, ?_, ?_⟩
  · simp [sys_exec, hex, hq, isExecLine,
      processOut_filter_execLine INFO "o>>" "e>>" inv.stdout_file_dest
        w.stdoutScript (by decide)]
  · simp [sys_exec, hex, hq,
      processOut_no_threadStart INFO "o>>" inv.stdout_file_dest
        w.stdoutScript StreamTag.err]
  · intro d hd
    simp [sys_exec, hex, hq, hd, processOut]

/-- C8 amended witness at the concrete failing quiet invocation. -/
theorem quiet_stderr_no_err_lines_inst :
    ((sys_exec invQuiet worldQuiet).trace.filter (isExecLine "e>>") = [])
    ∧ Event.threadStart StreamTag.err ∉ (sys_exec invQuiet worldQuiet).trace
    ∧ (∀ d, invQuiet.stdout_file_dest = some d →
        Event.infoLog ("Set up output to capture file: " ++ d)
          ∈ (sys_exec invQuiet worldQuiet).trace) :=
  quiet_stderr_no_err_lines invQuiet worldQuiet (by decide) (by decide)

/-- C9: when a capture destination is given, the file is opened in truncating
write mode, so after the call it holds exactly the stdout lines of this
invocation in order — its prior contents are discarded and capture does not
accumulate across invocations. -/
theorem capture_truncates_and_holds_stdout (inv : Invocation) (w : World)
    (d : String) (hex : inv.executable ∈ w.existingFiles)
    (hd : inv.stdout_file_dest = some d) :
    (sys_exec inv w).captureContents
      = some (String.join (capturedLines w.stdoutScript))
    ∧ openWriteTruncate w.priorCapture = "" := by
  refine ⟨?_, rfl⟩
  simp [sys_exec, hex, hd, processOut]
  rw [drainLoop_snd_capturedLines INFO "o>>" w.stdoutScript]
  rfl

/-- C9, sample invocation overwriting an existing capture file. -/
def invOverwrite : Invocation :=
  { cwd := "/tmp", executable := "/bin/ls", exec_args := [],
    environment := [], stdout_file_dest := some "/tmp/out.txt" }

/-- C9, sample world where the capture file already holds a previous run. -/
def worldOverwrite : World :=
  { existingFiles := ["/bin/ls"], parentEnv := [],
    stdoutScript := [ReadResult.line "a.txt\n", ReadResult.line "b.txt\n",
                     ReadResult.eof],
    stderrScript := [ReadResult.eof], runtimeAtWait := 0, exitCode := 0,
    priorCapture := "stale lines from an earlier run\n" }

/-- C9 witness at a concrete invocation over a nonempty prior file. -/
theorem capture_truncates_and_holds_stdout_inst :
    (sys_exec invOverwrite worldOverwrite).captureContents
      = some (String.join (capturedLines worldOverwrite.stdoutScript))
    ∧ openWriteTruncate worldOverwrite.priorCapture = "" :=
  capture_truncates_and_holds_stdout invOverwrite worldOverwrite
    "/tmp/out.txt" (by decide) rfl

/-- C10: the spawned child receives `childEnvOf (some environment) parentEnv`
as its environment, which equals the provided mapping: any variable not in the
mapping — in particular one only present in the parent environment — is absent
from the child environment; the mapping replaces rather than extends the
parent environment. -/
theorem child_env_replaces_parent (inv : Invocation) (w : World)
    (hex : inv.executable ∈ w.existingFiles) :
    Event.spawnEvt inv.executable inv.exec_args inv.cwd
        (childEnvOf (some inv.environment) w.parentEnv) ∈ (sys_exec inv w).trace
    ∧ childEnvOf (some inv.environment) w.parentEnv = inv.environment
    ∧ (∀ k v, (k, v) ∈ w.parentEnv →
        (inv.environment.all fun p => p.1 != k) = true →
        (k, v) ∉ childEnvOf (some inv.environment) w.parentEnv) := by
  refine ⟨?_, rfl, ?_⟩
  · simp [sys_exec, hex]
  · intro k v _ hall hmem
    have hk := List.all_eq_true.mp hall (k, v) hmem
    simp at hk

/-- C10, sample invocation whose mapping omits the parent variable HOME. -/
def invEnv : Invocation :=
  { cwd := "/tmp", executable := "/bin/env", exec_args := [],
    environment := [("ONLY_VAR", "1")] }

/-- C10, sample world whose parent environment holds HOME. -/
def worldEnv : World :=
  { existingFiles := ["/bin/env"], parentEnv := [("HOME", "/root")],
    stdoutScript := [ReadResult.eof], stderrScript := [ReadResult.eof],
    runtimeAtWait := 0, exitCode := 0 }

/-- C10 witness: HOME from the parent environment is not in the child
environment. -/
theorem child_env_replaces_parent_inst :
    Event.spawnEvt invEnv.executable invEnv.exec_args invEnv.cwd
        (childEnvOf (some invEnv.environment) worldEnv.parentEnv)
      ∈ (sys_exec invEnv worldEnv).trace
    ∧ childEnvOf (some invEnv.environment) worldEnv.parentEnv
        = invEnv.environment
    ∧ ("HOME", "/root")
        ∉ childEnvOf (some invEnv.environment) worldEnv.parentEnv :=
  ⟨(child_env_replaces_parent invEnv worldEnv (by decide)).1,
   (child_env_replaces_parent invEnv worldEnv (by decide)).2.1,
   (child_env_replaces_parent invEnv worldEnv (by decide)).2.2 "HOME" "/root"
     (by decide) (by decide)⟩

/-- A successful run of the `block_until` loop: the condition is false for `k`
polls starting at iteration `i`, true at poll `i + k`, and every elapsed check
up to there is within the timeout; the loop returns the effect value with the
expected trace. -/
theorem blockLoop_success (clock : Nat → Nat) (cond : Nat → Bool)
    (effRet : Int) (cn en : String) (timeout_s wait_s : Nat) :
    ∀ k fuel i, (∀ j, j < k → cond (i + j) = false) → cond (i + k) = true →
      (∀ j, j ≤ k → elapsedAt clock (i + j) ≤ (timeout_s : Int)) → k < fuel →
      blockLoop clock cond effRet cn en timeout_s wait_s fuel i
        = (some (Except.ok effRet),
           pollTrace clock timeout_s wait_s effRet i k) := by
  intro k
  induction k with
  | zero =>
      intro fuel i _ ht hb hfuel
      obtain ⟨f, rfl⟩ : ∃ f, fuel = f + 1 := ⟨fuel - 1, by omega⟩
      have h1 : ¬ elapsedAt clock i > (timeout_s : Int) := by
        have hbb := hb 0 (Nat.le_refl 0)
        simp only [Nat.add_zero] at hbb
        exact not_lt.mpr hbb
      have ht0 : cond i = true := by simpa using ht
      simp [blockLoop, pollTrace, h1, ht0]
  | succ k ih =>
      intro fuel i hf ht hb hfuel
      obtain ⟨f, rfl⟩ : ∃ f, fuel = f + 1 := ⟨fuel - 1, by omega⟩
      have h1 : ¬ elapsedAt clock i > (timeout_s : Int) := by
        have hbb := hb 0 (Nat.zero_le _)
        simp only [Nat.add_zero] at hbb
        exact not_lt.mpr hbb
      have h2 : cond i = false := by
        have := hf 0 (Nat.succ_pos k)
        simpa using this
      have hrec := ih f (i + 1)
        (fun j hj => by
          have := hf (j + 1) (by omega)
          rwa [show i + (j + 1) = i + 1 + j by omega] at this)
        (by
          have := ht
          rwa [show i + (k + 1) = i + 1 + k by omega] at this)
        (fun j hj => by
          have := hb (j + 1) (by omega)
          rwa [show i + (j + 1) = i + 1 + j by omega] at this)
        (by omega)
      simp [blockLoop, pollTrace, h1, h2, hrec]

/-- A timed-out run of the `block_until` loop: the condition is false and the
elapsed check in bounds for `k` polls starting at iteration `i`, and the
elapsed check of iteration `i + k` strictly exceeds the timeout; the loop
raises the `TimeoutError` naming the condition and the effect, before polling
the condition of that iteration. -/
theorem blockLoop_timeout (clock : Nat → Nat) (cond : Nat → Bool)
    (effRet : Int) (cn en : String) (timeout_s wait_s : Nat) :
    ∀ k fuel i,
      (∀ j, j < k → cond (i + j) = false
        ∧ elapsedAt clock (i + j) ≤ (timeout_s : Int)) →
      elapsedAt clock (i + k) > (timeout_s : Int) → k < fuel →
      blockLoop clock cond effRet cn en timeout_s wait_s fuel i
        = (some (Except.error (timeoutMsg cn en)),
           pollFailTrace clock timeout_s wait_s i k) := by
  intro k
  induction k with
  | zero =>
      intro fuel i _ ht hfuel
      obtain ⟨f, rfl⟩ : ∃ f, fuel = f + 1 := ⟨fuel - 1, by omega⟩
      have ht0 : elapsedAt clock i > (timeout_s : Int) := by simpa using ht
      simp [blockLoop, pollFailTrace, ht0]
  | succ k ih =>
      intro fuel i hf ht hfuel
      obtain ⟨f, rfl⟩ : ∃ f, fuel = f + 1 := ⟨fuel - 1, by omega⟩
      have h1 : ¬ elapsedAt clock i > (timeout_s : Int) := by
        have hbb := (hf 0 (Nat.succ_pos k)).2
        simp only [Nat.add_zero] at hbb
        exact not_lt.mpr hbb
      have h2 : cond i = false := by
        have := (hf 0 (Nat.succ_pos k)).1
        simpa using this
      have hrec := ih f (i + 1)
        (fun j hj => by
          have := hf (j + 1) (by omega)
          rwa [show i + (j + 1) = i + 1 + j by omega] at this)
        (by
          have := ht
          rwa [show i + (k + 1) = i + 1 + k by omega] at this)
        (by omega)
      simp [blockLoop, pollFailTrace, h1, h2, hrec]

/-- A successful trace runs the effect exactly once. -/
theorem countEffectRuns_pollTrace (clock : Nat → Nat)
    (timeout_s wait_s : Nat) (effRet : Int) :
    ∀ k i, countEffectRuns (pollTrace clock timeout_s wait_s effRet i k) = 1
  | 0, _ => rfl
  | k + 1, i => by
      have := countEffectRuns_pollTrace clock timeout_s wait_s effRet k (i + 1)
      simpa [pollTrace, countEffectRuns, List.filter] using this

/-- A timed-out trace never runs the effect. -/
theorem countEffectRuns_pollFailTrace (clock : Nat → Nat)
    (timeout_s wait_s : Nat) :
    ∀ k i, countEffectRuns (pollFailTrace clock timeout_s wait_s i k) = 0
  | 0, _ => rfl
  | k + 1, i => by
      have := countEffectRuns_pollFailTrace clock timeout_s wait_s k (i + 1)
      simpa [pollFailTrace, countEffectRuns, List.filter] using this

/-- C6: before each condition poll the elapsed seconds are compared against
`timeout_s` and a `TimeoutError` naming the condition and the effect is raised
when they strictly exceed it; otherwise the condition is polled, each false
poll is followed by a sleep of `condition_fail_wait_s` seconds, and the first
true poll runs the effect exactly once and returns its value; the Python
defaults are `timeout_s = 360` and `condition_fail_wait_s = 10`. -/
theorem block_until_spec :
    (∀ (fuel : Nat) (clock : Nat → Nat) (cond : Nat → Bool) (effRet : Int)
        (cn en : String) (timeout_s wait_s k : Nat),
      (∀ j, j < k → cond j = false) → cond k = true →
      (∀ j, j ≤ k → elapsedAt clock j ≤ (timeout_s : Int)) → k < fuel →
      block_until fuel clock cond effRet cn en timeout_s wait_s
        = (some (Except.ok effRet),
           pollTrace clock timeout_s wait_s effRet 0 k)
      ∧ countEffectRuns (pollTrace clock timeout_s wait_s effRet 0 k) = 1)
    ∧ (∀ (fuel : Nat) (clock : Nat → Nat) (cond : Nat → Bool) (effRet : Int)
        (cn en : String) (timeout_s wait_s k : Nat),
      (∀ j, j < k → cond j = false ∧ elapsedAt clock j ≤ (timeout_s : Int)) →
      elapsedAt clock k > (timeout_s : Int) → k < fuel →
      block_until fuel clock cond effRet cn en timeout_s wait_s
        = (some (Except.error (timeoutMsg cn en)),
           pollFailTrace clock timeout_s wait_s 0 k)
      ∧ countEffectRuns (pollFailTrace clock timeout_s wait_s 0 k) = 0)
    ∧ (∀ (fuel : Nat) (clock : Nat → Nat) (cond : Nat → Bool) (effRet : Int)
        (cn en : String),
      block_until fuel clock cond effRet cn en
        = block_until fuel clock cond effRet cn en 360 10) := by
  refine ⟨?_, ?_, ?_⟩
  · intro fuel clock cond effRet cn en timeout_s wait_s k hf ht hb hfuel
    refine ⟨?_, countEffectRuns_pollTrace clock timeout_s wait_s effRet k 0⟩
    exact blockLoop_success clock cond effRet cn en timeout_s wait_s k fuel 0
      (fun j hj => by simpa using hf j hj)
      (by simpa using ht)
      (fun j hj => by simpa using hb j hj) hfuel
  · intro fuel clock cond effRet cn en timeout_s wait_s k hf ht hfuel
    refine ⟨?_, countEffectRuns_pollFailTrace clock timeout_s wait_s k 0⟩
    exact blockLoop_timeout clock cond effRet cn en timeout_s wait_s k fuel 0
      (fun j hj => by simpa using hf j hj)
      (by simpa using ht) hfuel
  · intro fuel clock cond effRet cn en
    rfl

/-- C6 witness: with a one-second-per-call clock and a condition first true at
the third poll, the loop sleeps twice for 10 seconds, runs the effect once and
returns its value 7; with a clock that jumps past the timeout, it raises. -/
theorem block_until_spec_inst :
    (block_until 10 (fun n => n) (fun i => i == 2) 7 "cond" "eff" 360 10
        = (some (Except.ok 7), pollTrace (fun n => n) 360 10 7 0 2)
      ∧ countEffectRuns (pollTrace (fun n => n) 360 10 7 0 2) = 1)
    ∧ (block_until 10 (fun n => 500 * n) (fun _ => true) 7 "cond" "eff" 360 10
        = (some (Except.error (timeoutMsg "cond" "eff")),
           pollFailTrace (fun n => 500 * n) 360 10 0 0)
      ∧ countEffectRuns (pollFailTrace (fun n => 500 * n) 360 10 0 0) = 0) :=
  ⟨block_until_spec.1 10 (fun n => n) (fun i => i == 2) 7 "cond" "eff"
      360 10 2 (by decide) (by decide) (by decide) (by decide),
   block_until_spec.2.1 10 (fun n => 500 * n) (fun _ => true) 7 "cond" "eff"
      360 10 0 (by intro j hj; cases hj) (by decide) (by decide)⟩

end PloxSystem
